import Mathlib

/-!
# Channel controller (`controller/channel.go`)

A shallow embedding of the HTTP handlers of `controller/channel.go`.

A handler of the source receives a `*gin.Context`, calls into the packages
`model` (persistence) and `common` (helpers, constants) and writes JSON
envelopes with `c.JSON`.  Here a handler is a function from its inputs (the
bound request, plus the answers of the collaborators it consults) to the
chronological list of externally visible events it performs: every
collaborator call and every `c.JSON` write, in program order.

Go `string` is `String`, Go `int` is `Int` (wrapped to 64 bits where the
source does arithmetic), `error` is `Option String` (`none` is `nil`), a
`(value, error)` result is `Except String value`, and a pointer that may be
`nil` is an `Option`.
-/

namespace Controller

/-! ## Data model -/

/-- Modelled from the spec: the Channel Record of package `model` (section 3 of
the specification), whose declaration is outside the listed source.  The
handlers read `Id`, `Type`, `Key`, `Other`, `BaseURL`, `CreatedTime` and the
tag; the other fields are the remaining configuration carried along. -/
structure Channel where
  Id : Int
  Type_ : Int
  Key : String
  Status : Int
  Name : String
  Weight : Option Nat
  CreatedTime : Int
  BaseURL : Option String
  Other : String
  Models : String
  Group : String
  ModelMapping : Option String
  Priority : Option Int
  Tag : Option String
  deriving DecidableEq, Repr

/-- Modelled from the spec: `channel.GetTag()` of package `model`; the tag is
an optional string and an absent tag reads as the empty string. -/
def Channel.GetTag (channel : Channel) : String :=
  match channel.Tag with
  | none => ""
  | some t => t

/-- The zero value `model.Channel{}`. -/
def Channel.zero : Channel :=
  { Id := 0, Type_ := 0, Key := "", Status := 0, Name := "", Weight := none,
    CreatedTime := 0, BaseURL := none, Other := "", Models := "", Group := "",
    ModelMapping := none, Priority := none, Tag := none }

/-- The anonymous struct type of `OpenAIModel.Permission`. -/
structure OpenAIModelPermission where
  ID : String
  Object : String
  Created : Int
  AllowCreateEngine : Bool
  AllowSampling : Bool
  AllowLogprobs : Bool
  AllowSearchIndices : Bool
  AllowView : Bool
  AllowFineTuning : Bool
  Organization : String
  Group : String
  IsBlocking : Bool
  deriving DecidableEq, Repr

/-- The struct `OpenAIModel`. -/
structure OpenAIModel where
  ID : String
  Object : String
  Created : Int
  OwnedBy : String
  Permission : List OpenAIModelPermission
  Root : String
  Parent : String
  deriving DecidableEq, Repr

/-- The struct `OpenAIModelsResponse`. -/
structure OpenAIModelsResponse where
  Data : List OpenAIModel
  Success : Bool
  deriving DecidableEq, Repr

/-- The struct `ChannelTag`. -/
structure ChannelTag where
  Tag : String
  NewTag : Option String
  Priority : Option Int
  Weight : Option Nat
  ModelMapping : Option String
  Models : Option String
  Groups : Option String
  deriving DecidableEq, Repr

/-- A Go `map[string]interface{}` as an association list; the value `none` is
the `nil` interface (a JSON `null`), `some v` a non-nil value. -/
abbrev GoMap := List (String × Option String)

/-- The index expression `m[key]` on a `map[string]interface{}`: the stored
value, or `nil` when the key is absent. -/
def GoMap.index (m : GoMap) (key : String) : Option String :=
  match m.lookup key with
  | some v => v
  | none => none

/-- The key set of a map contains `key`. -/
def GoMap.hasKey (m : GoMap) (key : String) : Bool :=
  (m.lookup key).isSome

/-- Modelled from the spec: the members of package `common` the handlers use,
which are declared outside the listed source: the two provider-type constants,
the default page size, and the two JSON helpers.  `IsJsonStr s` says that `s`
parses as a structured key/value map and `StrToMap s` is that map; the empty
string is no JSON text, so it does not parse. -/
structure Common where
  ChannelTypeOpenAI : Int
  ChannelTypeVertexAi : Int
  ItemsPerPage : Int
  IsJsonStr : String → Bool
  StrToMap : String → GoMap
  IsJsonStr_empty : IsJsonStr "" = false

/-- Modelled from the spec: the persistence collaborator (package `model`,
section 6 of the specification), as the answers it gives to the calls the
handlers make.  The id is the unique identity of a stored record (section 3),
so the records of a listed page have pairwise distinct ids; nothing is assumed
about the answers of the other calls. -/
structure Model where
  GetAllChannels : Int → Int → Bool → Bool → Except String (List Channel)
  GetChannelsByTag : String → Except String (List Channel)
  GetChannelById : Int → Bool → Except String Channel
  BatchInsertChannels : List Channel → Option String
  Update : Channel → Option String × Channel
  DisableChannelByTag : String → Option String
  EnableChannelByTag : String → Option String
  EditChannelByTag : String → Option String → Option String → Option String →
    Option String → Option Int → Option Nat → Option String
  GetAllChannels_ids : ∀ startIdx num selectAll idSort page,
    GetAllChannels startIdx num selectAll idSort = .ok page → (page.map Channel.Id).Nodup

/-- The value stored under `"data"` in a response envelope. -/
inductive Payload where
  | channels (l : List Channel)
  | channel (c : Channel)
  | ids (l : List String)
  deriving DecidableEq, Repr

/-- The envelope `gin.H{"success": .., "message": .., "data": ..}`. -/
structure H where
  success : Bool
  message : String
  data : Option Payload
  deriving DecidableEq, Repr

/-- An externally visible step of a handler. -/
inductive Event where
  | JSON (code : Nat) (obj : H)
  | GetAllChannels (startIdx num : Int) (selectAll idSort : Bool)
  | GetChannelsByTag (tag : String)
  | GetChannelById (id : Int) (selectAll : Bool)
  | GetResponseBody (method url : String) (channel : Channel) (key : String)
  | BatchInsertChannels (channels : List Channel)
  | Update (channel : Channel)
  | DisableChannelByTag (tag : String)
  | EnableChannelByTag (tag : String)
  | EditChannelByTag (tag : String) (newTag modelMapping models group : Option String)
      (priority : Option Int) (weight : Option Nat)
  | nilDereference
  deriving DecidableEq, Repr

/-- The constant `http.StatusOK`. -/
def StatusOK : Nat := 200

/-- The call `c.JSON(http.StatusOK, gin.H{"success": false, "message": msg})`. -/
def failure (msg : String) : Event :=
  .JSON StatusOK { success := false, message := msg, data := none }

/-- The call `c.JSON(http.StatusOK, gin.H{"success": true, "message": "", ..})`. -/
def success (data : Option Payload) : Event :=
  .JSON StatusOK { success := true, message := "", data := data }

/-- The envelopes a handler wrote, in order. -/
def responses : List Event → List H
  | [] => []
  | .JSON _ obj :: es => obj :: responses es
  | _ :: es => responses es

/-- An event is a call into the persistence collaborator (read or write). -/
def Event.isPersistence : Event → Bool
  | .JSON _ _ => false
  | .GetResponseBody _ _ _ _ => false
  | .nilDereference => false
  | _ => true

/-- The persistence calls a handler made, in order. -/
def persistenceCalls (es : List Event) : List Event :=
  es.filter Event.isPersistence

/-- Wrap-around of Go `int` (64 bits, two-complement). -/
def wrap64 (x : Int) : Int :=
  (x + 2 ^ 63) % 2 ^ 64 - 2 ^ 63

/-! ## `strings.Split(s, "\n")` -/

/-- The pieces of a character sequence between the occurrences of `sep`: one
more piece than there are separators, as `strings.Split` returns them. -/
def splitChars (sep : Char) : List Char → List (List Char)
  | [] => [[]]
  | c :: cs =>
    if c = sep then [] :: splitChars sep cs
    else
      match splitChars sep cs with
      | [] => [[c]]
      | piece :: pieces => (c :: piece) :: pieces

/-- The call `strings.Split(s, "\n")`. -/
def strings_Split (s : String) : List String :=
  (splitChars '\n' s.data).map String.mk

/-! ## `GetAllChannels` -/

/-- The local variables of `GetAllChannels` during its first loop: the set
`tags` (the keys mapped to `true`), the two slices, and the fetches made. -/
structure ListState where
  tags : List String
  channelData : List Channel
  tagChannels : List Channel
  log : List Event
  deriving DecidableEq, Repr

/-- One iteration of the first loop of `GetAllChannels` (lines 63-74). -/
def GetAllChannels_partition (md : Model) (st : ListState) (channel : Channel) : ListState :=
  let channelTag := channel.GetTag
  if channelTag ≠ "" ∧ ¬ channelTag ∈ st.tags then
    let st1 := { st with tags := channelTag :: st.tags,
                         log := st.log ++ [Event.GetChannelsByTag channelTag] }
    match md.GetChannelsByTag channelTag with
    | .ok tagChannel => { st1 with tagChannels := st1.tagChannels ++ tagChannel }
    | .error _ => st1
  else
    { st with channelData := st.channelData ++ [channel] }

/-- One iteration of the second loop of `GetAllChannels` (lines 75-86): the
inner loop searches `channelData` for the id. -/
def GetAllChannels_dedup (channelData : List Channel) (channel : Channel) : List Channel :=
  let find := channelData.any (fun can => channel.Id == can.Id)
  if !find then channelData ++ [channel] else channelData

/-- Lines 60-86 of `GetAllChannels`: the state after the first loop. -/
def GetAllChannels_state (md : Model) (channels : List Channel) : ListState :=
  channels.foldl (GetAllChannels_partition md)
    { tags := [], channelData := [], tagChannels := [], log := [] }

/-- Lines 60-86 of `GetAllChannels`: the final `channelData`. -/
def GetAllChannels_data (md : Model) (channels : List Channel) : List Channel :=
  let st := GetAllChannels_state md channels
  st.tagChannels.foldl GetAllChannels_dedup st.channelData

/-- Lines 43-50 and the arguments of line 52 of `GetAllChannels`: the start
index and the page size passed to the listing call.  `pQuery` and
`pageSizeQuery` are the values `strconv.Atoi` returns for the query parameters
(its error is discarded). -/
def GetAllChannels_query (cm : Common) (pQuery pageSizeQuery : Int) : Int × Int :=
  let p := if pQuery < 0 then 0 else pQuery
  let pageSize := if pageSizeQuery < 0 then cm.ItemsPerPage else pageSizeQuery
  (wrap64 (p * pageSize), pageSize)

/-- The handler `GetAllChannels`; `idSort` is the value of `strconv.ParseBool`
for the query parameter `id_sort`. -/
def GetAllChannels (cm : Common) (md : Model) (pQuery pageSizeQuery : Int) (idSort : Bool) :
    List Event :=
  let (startIdx, pageSize) := GetAllChannels_query cm pQuery pageSizeQuery
  Event.GetAllChannels startIdx pageSize false idSort ::
    match md.GetAllChannels startIdx pageSize false idSort with
    | .error err => [failure err]
    | .ok channels =>
      (GetAllChannels_state md channels).log ++
        [success (some (.channels (GetAllChannels_data md channels)))]

/-! ## `FetchUpstreamModels` -/

/-- The loop of lines 142-145: the ids of the decoded models. -/
def modelIds (data : List OpenAIModel) : List String :=
  data.foldl (fun ids model => ids ++ [model.ID]) []

/-- The handler `FetchUpstreamModels`.  `idParam` is the result of
`strconv.Atoi(c.Param("id"))`; `GetResponseBody` answers the upstream request
with a body and an error (its last argument, `GetAuthHeader(channel.Key)`, is
given by the key); `Unmarshal` is `json.Unmarshal` into the zero
`OpenAIModelsResponse`, giving its error and the value left in `result`.  The
dereference `*channel.BaseURL` of a nil pointer ends the handler. -/
def FetchUpstreamModels (cm : Common) (md : Model)
    (GetResponseBody : String → String → Channel → String → List Nat × Option String)
    (Unmarshal : List Nat → Option String × OpenAIModelsResponse)
    (idParam : Except String Int) : List Event :=
  match idParam with
  | .error err => [failure err]
  | .ok id =>
    Event.GetChannelById id true ::
      match md.GetChannelById id true with
      | .error err => [failure err]
      | .ok channel =>
        if channel.Type_ ≠ cm.ChannelTypeOpenAI then
          [failure "仅支持 OpenAI 类型渠道"]
        else
          match channel.BaseURL with
          | none => [Event.nilDereference]
          | some baseURL =>
            let url := baseURL ++ "/v1/models"
            let (body, err) := GetResponseBody "GET" url channel channel.Key
            let e1 := match err with
              | some msg => [failure msg]
              | none => []
            let (err2, result) := Unmarshal body
            let e2 := match err2 with
              | some msg => [failure msg]
              | none => []
            let e3 := if !result.Success then [failure "上游返回错误"] else []
            let ids := modelIds result.Data
            Event.GetResponseBody "GET" url channel channel.Key ::
              (e1 ++ e2 ++ e3 ++ [success (some (.ids ids))])

/-! ## `AddChannel` -/

/-- The loop of lines 250-258 of `AddChannel`. -/
def AddChannel_expand (channel : Channel) (keys : List String) : List Channel :=
  keys.foldl
    (fun channels key =>
      if key = "" then channels
      else
        let localChannel := { channel with Key := key }
        channels ++ [localChannel])
    []

/-- Lines 250-271 of `AddChannel`: build the records, insert them in one batch
and report the outcome. -/
def AddChannel_insert (md : Model) (channel : Channel) (keys : List String) : List Event :=
  let channels := AddChannel_expand channel keys
  Event.BatchInsertChannels channels ::
    match md.BatchInsertChannels channels with
    | some err => [failure err]
    | none => [success none]

/-- The handler `AddChannel`.  `bind` is the outcome of `c.ShouldBindJSON`
into the zero channel, `now` the value of `common.GetTimestamp()`. -/
def AddChannel (cm : Common) (md : Model) (now : Int) (bind : Except String Channel) :
    List Event :=
  match bind with
  | .error err => [failure err]
  | .ok bound =>
    let channel := { bound with CreatedTime := now }
    let keys := strings_Split channel.Key
    if channel.Type_ = cm.ChannelTypeVertexAi then
      if channel.Other = "" then
        [failure "部署地区不能为空"]
      else if cm.IsJsonStr channel.Other ∧
          (cm.StrToMap channel.Other).index "default" = none then
        [failure "部署地区必须包含default字段"]
      else
        AddChannel_insert md channel [channel.Key]
    else
      AddChannel_insert md channel keys

/-! ## The tag operations -/

/-- The handler `DisableTagChannels`. -/
def DisableTagChannels (md : Model) (bind : Except String ChannelTag) : List Event :=
  match bind with
  | .error _ => [failure "参数错误"]
  | .ok channelTag =>
    if channelTag.Tag = "" then [failure "参数错误"]
    else
      Event.DisableChannelByTag channelTag.Tag ::
        match md.DisableChannelByTag channelTag.Tag with
        | some err => [failure err]
        | none => [success none]

/-- The handler `EnableTagChannels`. -/
def EnableTagChannels (md : Model) (bind : Except String ChannelTag) : List Event :=
  match bind with
  | .error _ => [failure "参数错误"]
  | .ok channelTag =>
    if channelTag.Tag = "" then [failure "参数错误"]
    else
      Event.EnableChannelByTag channelTag.Tag ::
        match md.EnableChannelByTag channelTag.Tag with
        | some err => [failure err]
        | none => [success none]

/-- The handler `EditTagChannels`. -/
def EditTagChannels (md : Model) (bind : Except String ChannelTag) : List Event :=
  match bind with
  | .error _ => [failure "参数错误"]
  | .ok channelTag =>
    if channelTag.Tag = "" then [failure "tag不能为空"]
    else
      Event.EditChannelByTag channelTag.Tag channelTag.NewTag channelTag.ModelMapping
          channelTag.Models channelTag.Groups channelTag.Priority channelTag.Weight ::
        match md.EditChannelByTag channelTag.Tag channelTag.NewTag channelTag.ModelMapping
            channelTag.Models channelTag.Groups channelTag.Priority channelTag.Weight with
        | some err => [failure err]
        | none => [success none]

/-! ## `UpdateChannel` -/

/-- Lines 462-475 of `UpdateChannel`: the update and the report of its outcome.
`channel.Update()` has a pointer receiver: the collaborator answers with its
error and the record it leaves behind. -/
def UpdateChannel_update (md : Model) (channel : Channel) : List Event :=
  Event.Update channel ::
    match md.Update channel with
    | (some err, _) => [failure err]
    | (none, updated) => [success (some (.channel updated))]

/-- The handler `UpdateChannel`; `bind` is the outcome of `c.ShouldBindJSON`. -/
def UpdateChannel (cm : Common) (md : Model) (bind : Except String Channel) : List Event :=
  match bind with
  | .error err => [failure err]
  | .ok channel =>
    if channel.Type_ = cm.ChannelTypeVertexAi then
      if channel.Other = "" then
        [failure "部署地区不能为空"]
      else if cm.IsJsonStr channel.Other ∧
          (cm.StrToMap channel.Other).index "default" = none then
        [failure "部署地区必须包含default字段"]
      else
        UpdateChannel_update md channel
    else
      UpdateChannel_update md channel

/-! ## A store-backed collaborator, for concrete runs -/

/-- Modelled from the spec: a stand-in for the helpers of package `common`, with
the provider-type constants 1 (OpenAI) and 41 (Vertex AI) and a page size of
10.  A string is taken to parse as a map when it opens with a brace (character
123), and the map has no keys: the helpers are used below on the empty object
and on strings that hold no brace only. -/
def sampleCommon : Common :=
  { ChannelTypeOpenAI := 1
    ChannelTypeVertexAi := 41
    ItemsPerPage := 10
    IsJsonStr := fun s => s.data.head? == some (Char.ofNat 123)
    StrToMap := fun _ => []
    IsJsonStr_empty := by decide }

/-- Modelled from the spec: a persistence collaborator over a list of stored
records with distinct ids.  A page is a window of the store, a tag-group fetch
returns every stored record of that tag unless the tag is in `failing` (then it
reports an error), and every write succeeds. -/
def storeModel (store : List Channel) (hstore : (store.map Channel.Id).Nodup)
    (failing : List String) : Model :=
  { GetAllChannels := fun startIdx num _ _ =>
      .ok ((store.drop startIdx.toNat).take num.toNat)
    GetChannelsByTag := fun tag =>
      if tag ∈ failing then .error "database error"
      else .ok (store.filter (fun c => c.GetTag == tag))
    GetChannelById := fun id _ =>
      match store.find? (fun c => c.Id == id) with
      | some c => .ok c
      | none => .error "record not found"
    BatchInsertChannels := fun _ => none
    Update := fun c => (none, c)
    DisableChannelByTag := fun _ => none
    EnableChannelByTag := fun _ => none
    EditChannelByTag := fun _ _ _ _ _ _ _ => none
    GetAllChannels_ids := by
      intro startIdx num _ _ page h
      cases h
      exact hstore.sublist
        (((List.take_sublist _ _).trans (List.drop_sublist _ _)).map Channel.Id) }

/-- A collaborator over the empty store. -/
def emptyModel : Model :=
  storeModel [] List.nodup_nil []

/-! ## The key expansion as the specification words it -/

/-- Split the raw credential on newline, drop the empty lines, and give each
remaining line, in order, a copy of `channel` that differs in the credential
only. -/
def expandSpec (channel : Channel) (raw : String) : List Channel :=
  ((strings_Split raw).filter (fun line => line ≠ "")).map
    (fun line => { channel with Key := line })

/-- The envelope that reports the outcome of a write: lines 260-271 and their
copies in the other handlers. -/
def writeOutcome (err : Option String) (data : Option Payload) : Event :=
  match err with
  | some msg => failure msg
  | none => success data

/-! ## Inputs and predicates used in the statements -/

/-- The code's validation of a regional channel (lines 229-247 of `AddChannel`,
442-460 of `UpdateChannel`) lets the channel through. -/
def passesValidation (cm : Common) (channel : Channel) : Prop :=
  channel.Other ≠ "" ∧
    ¬ (cm.IsJsonStr channel.Other = true ∧ (cm.StrToMap channel.Other).index "default" = none)

instance (cm : Common) (channel : Channel) : Decidable (passesValidation cm channel) := by
  unfold passesValidation; infer_instance

/-- A non-regional channel whose credential is one blank. -/
def blankKeyChannel : Channel :=
  { Channel.zero with Key := " " }

/-- A regional channel with a plain region string and the empty credential. -/
def vertexNoKey : Channel :=
  { Channel.zero with Type_ := 41, Other := "us-central1" }

/-- A regional channel whose `other` field is the empty object: it parses as a
map and has no `default` key. -/
def vertexEmptyObject : Channel :=
  { Channel.zero with Type_ := 41, Key := "k", Other := "\x7b\x7d" }

/-- A regional channel whose `other` field is the empty string. -/
def vertexEmptyOther : Channel :=
  { Channel.zero with Type_ := 41, Key := "k" }

/-- A regional channel whose `other` field is a plain region name. -/
def vertexPlainRegion : Channel :=
  { Channel.zero with Type_ := 41, Key := "k", Other := "us-central1" }

/-- A tag request with the given tag and nothing to edit. -/
def tagRequest (tag : String) : ChannelTag :=
  { Tag := tag, NewTag := none, Priority := none, Weight := none, ModelMapping := none,
    Models := none, Groups := none }

/-- A stored channel of the OpenAI-compatible type with a base URL. -/
def openaiChannel : Channel :=
  { Channel.zero with Id := 1, Type_ := 1, Key := "sk-1", BaseURL := some "https://up.example" }

/-- An upstream that cannot be reached: `GetResponseBody` returns no body and a
transport error. -/
def refusedUpstream : String → String → Channel → String → List Nat × Option String :=
  fun _ _ _ _ => ([], some "connection refused")

/-- An upstream that answers with a body (here the single byte 1). -/
def answeringUpstream : String → String → Channel → String → List Nat × Option String :=
  fun _ _ _ _ => ([1], none)

/-- The behaviour of `json.Unmarshal` on the two bodies used here: the empty
body is a decode error that leaves `result` at its zero value, and the body
`[1]` stands for an envelope with `success` false and one model `m1`. -/
def sampleUnmarshal : List Nat → Option String × OpenAIModelsResponse :=
  fun body =>
    match body with
    | [] => (some "unexpected end of JSON input", { Data := [], Success := false })
    | _ =>
      (none,
        { Data := [{ ID := "m1", Object := "model", Created := 0, OwnedBy := "", Permission := [],
                     Root := "", Parent := "" }],
          Success := false })

/-! ## The listing as the specification words it -/

/-- Each element of `l` paired with the elements that come before it (after
the given `pre`), in order. -/
def withEarlier {α : Type} : List α → List α → List (List α × α)
  | _, [] => []
  | pre, x :: xs => (pre, x) :: withEarlier (pre ++ [x]) xs

/-- A page record is appended individually: its tag is empty, or its tag was
already seen on an earlier record of the page. -/
def isIndividual (pc : List Channel × Channel) : Bool :=
  decide (pc.2.GetTag = "" ∨ pc.2.GetTag ∈ pc.1.map Channel.GetTag)

/-- A page record opens its tag group: its tag is non-empty and is on no
earlier record of the page. -/
def opensGroup (pc : List Channel × Channel) : Bool :=
  decide (pc.2.GetTag ≠ "" ∧ ¬ pc.2.GetTag ∈ pc.1.map Channel.GetTag)

/-- The individually-appended records of a page, in page order. -/
def individually (page : List Channel) : List Channel :=
  ((withEarlier [] page).filter isIndividual).map Prod.snd

/-- The tags of the groups of a page, in order of first appearance. -/
def firstTags (page : List Channel) : List String :=
  ((withEarlier [] page).filter opensGroup).map (fun pc => pc.2.GetTag)

/-- The records a tag-group fetch contributes: its members, or nothing when
the fetch fails. -/
def fetchedGroup (md : Model) (tag : String) : List Channel :=
  match md.GetChannelsByTag tag with
  | .ok members => members
  | .error _ => []

/-- The fetched tag-group records in fetch order: group after group in the
order of `firstTags`, members in the order the fetch returned them. -/
def fetchedRecords (md : Model) (page : List Channel) : List Channel :=
  ((firstTags page).map (fetchedGroup md)).flatten

/-- A fetched record is new: its id is on no individually-appended record and
on no record fetched before it. -/
def isFresh (ind : List Channel) (pr : List Channel × Channel) : Bool :=
  decide (¬ pr.2.Id ∈ (ind ++ pr.1).map Channel.Id)

/-- The listing of section 4.3: the individually-appended page records in page
order, followed by the fetched tag-group records whose id is not already
present, in fetch order. -/
def listingSpec (md : Model) (page : List Channel) : List Channel :=
  individually page ++
    ((withEarlier [] (fetchedRecords md page)).filter (isFresh (individually page))).map Prod.snd

/-- A stored member of the tag group `"x"`, with id 1. -/
def groupMemberA : Channel :=
  { Channel.zero with Id := 1, Key := "k1", Tag := some "x" }

/-- A stored member of the tag group `"x"`, with id 2. -/
def groupMemberB : Channel :=
  { Channel.zero with Id := 2, Key := "k2", Tag := some "x" }

/-- A stored record without a tag, with id 3. -/
def loneChannel : Channel :=
  { Channel.zero with Id := 3, Key := "k3" }

/-- A store of three records: an untagged one and the two members of the tag
group `"x"`. -/
def sampleStore : List Channel :=
  [groupMemberA, loneChannel, groupMemberB]

/-- The collaborator over `sampleStore` whose calls all succeed. -/
def sampleModel : Model :=
  storeModel sampleStore (by decide) []

/-- The collaborator over `sampleStore` whose fetch of the tag group `"x"`
fails. -/
def failingModel : Model :=
  storeModel sampleStore (by decide) ["x"]

/-! # Theorems -/

/-! ## Key expansion -/

theorem AddChannel_expand_acc (channel : Channel) (keys : List String) (acc : List Channel) :
    keys.foldl
      (fun channels key =>
        if key = "" then channels
        else
          let localChannel := { channel with Key := key }
          channels ++ [localChannel]) acc
    = acc ++ (keys.filter (fun line => line ≠ "")).map (fun line => { channel with Key := line }) := by
  induction keys generalizing acc with
  | nil => simp
  | cons k ks ih =>
    rw [List.foldl_cons, ih]
    by_cases hk : k = ""
    · simp [hk]
    · simp [hk]

theorem AddChannel_expand_eq (channel : Channel) (keys : List String) :
    AddChannel_expand channel keys
      = (keys.filter (fun line => line ≠ "")).map (fun line => { channel with Key := line }) := by
  unfold AddChannel_expand
  rw [AddChannel_expand_acc]
  simp

theorem AddChannel_insert_eq (md : Model) (channel : Channel) (keys : List String) :
    AddChannel_insert md channel keys
      = [Event.BatchInsertChannels (AddChannel_expand channel keys),
         writeOutcome (md.BatchInsertChannels (AddChannel_expand channel keys)) none] := by
  simp only [AddChannel_insert, writeOutcome]
  cases md.BatchInsertChannels (AddChannel_expand channel keys) <;> rfl

theorem AddChannel_other_type (cm : Common) (md : Model) (now : Int) (channel : Channel)
    (hType : channel.Type_ ≠ cm.ChannelTypeVertexAi) :
    AddChannel cm md now (.ok channel)
      = AddChannel_insert md { channel with CreatedTime := now } (strings_Split channel.Key) := by
  simp only [AddChannel, hType, if_false]

theorem AddChannel_vertex_valid (cm : Common) (md : Model) (now : Int) (channel : Channel)
    (hType : channel.Type_ = cm.ChannelTypeVertexAi) (hvalid : passesValidation cm channel) :
    AddChannel cm md now (.ok channel)
      = AddChannel_insert md { channel with CreatedTime := now } [channel.Key] := by
  obtain ⟨hOther, hdef⟩ := hvalid
  simp only [AddChannel, hType, if_true, hOther, if_false]
  rw [if_neg hdef]

theorem splitChars_all_sep (sep : Char) (l : List Char) (h : ∀ c ∈ l, c = sep) :
    ∀ piece ∈ splitChars sep l, piece = [] := by
  induction l with
  | nil => simp [splitChars]
  | cons c cs ih =>
    have hc : c = sep := h c (List.mem_cons_self _ _)
    have hcs : ∀ d ∈ cs, d = sep := fun d hd => h d (List.mem_cons_of_mem _ hd)
    intro piece hp
    simp only [splitChars, hc, if_true, List.mem_cons] at hp
    rcases hp with hp | hp
    · exact hp
    · exact ih hcs piece hp

theorem expandSpec_newlines (channel : Channel) (raw : String)
    (h : ∀ c ∈ raw.data, c = '\n') : expandSpec channel raw = [] := by
  unfold expandSpec strings_Split
  rw [List.map_eq_nil_iff, List.filter_eq_nil_iff]
  intro line hline
  rw [List.mem_map] at hline
  obtain ⟨piece, hp, rfl⟩ := hline
  rw [splitChars_all_sep _ _ h piece hp]
  simp

theorem AddChannel_other_type_spec (cm : Common) (md : Model) (now : Int) (channel : Channel)
    (hType : channel.Type_ ≠ cm.ChannelTypeVertexAi) :
    AddChannel cm md now (.ok channel)
      = [Event.BatchInsertChannels (expandSpec { channel with CreatedTime := now } channel.Key),
         writeOutcome
           (md.BatchInsertChannels (expandSpec { channel with CreatedTime := now } channel.Key))
           none] := by
  rw [AddChannel_other_type cm md now channel hType, AddChannel_insert_eq,
    AddChannel_expand_eq]
  rfl

/-- C3: for a channel of a non-regional provider type, `AddChannel` passes to
the batch insert exactly the records of `expandSpec`: the raw credential split
on newline, the empty lines dropped, and for each remaining line, in order, the
submitted channel (stamped with the creation time) with only its credential
replaced by that line.  For the raw credential `"a\nb\n\nc"` these are three
records with the credentials `"a"`, `"b"`, `"c"`, in that order. -/
theorem AddChannel_expands_lines (cm : Common) (md : Model) (now : Int) (channel : Channel)
    (hType : channel.Type_ ≠ cm.ChannelTypeVertexAi) :
    AddChannel cm md now (.ok channel)
      = [Event.BatchInsertChannels (expandSpec { channel with CreatedTime := now } channel.Key),
         writeOutcome
           (md.BatchInsertChannels (expandSpec { channel with CreatedTime := now } channel.Key))
           none]
    ∧ (channel.Key = "a\nb\n\nc" →
        expandSpec { channel with CreatedTime := now } channel.Key
          = [{ channel with CreatedTime := now, Key := "a" },
             { channel with CreatedTime := now, Key := "b" },
             { channel with CreatedTime := now, Key := "c" }]) := by
  constructor
  · exact AddChannel_other_type_spec cm md now channel hType
  · intro hk
    rw [hk]
    simp [expandSpec, strings_Split, splitChars]

/-- Witness of C3: the three-line credential on a channel of type 0. -/
theorem AddChannel_expands_lines_witness :
    AddChannel sampleCommon emptyModel 7 (.ok { Channel.zero with Key := "a\nb\n\nc" })
      = [Event.BatchInsertChannels
           [{ Channel.zero with CreatedTime := 7, Key := "a" },
            { Channel.zero with CreatedTime := 7, Key := "b" },
            { Channel.zero with CreatedTime := 7, Key := "c" }],
         success none] := by
  have h := AddChannel_expands_lines sampleCommon emptyModel 7
    { Channel.zero with Key := "a\nb\n\nc" } (by decide)
  rw [h.1, h.2 rfl]
  rfl

/-- C4, as the code has it: for a channel of the regional provider type that
passes validation and a non-empty raw credential, `AddChannel` batch-inserts
exactly one record, whose credential is the raw string unchanged; for the
empty raw credential the batch is empty. -/
theorem AddChannel_vertex_single (cm : Common) (md : Model) (now : Int) (channel : Channel)
    (hType : channel.Type_ = cm.ChannelTypeVertexAi) (hvalid : passesValidation cm channel) :
    (channel.Key ≠ "" →
      AddChannel cm md now (.ok channel)
        = [Event.BatchInsertChannels [{ channel with CreatedTime := now }],
           writeOutcome (md.BatchInsertChannels [{ channel with CreatedTime := now }]) none])
    ∧ (channel.Key = "" →
      AddChannel cm md now (.ok channel)
        = [Event.BatchInsertChannels [], writeOutcome (md.BatchInsertChannels []) none]) := by
  rw [AddChannel_vertex_valid cm md now channel hType hvalid, AddChannel_insert_eq,
    AddChannel_expand_eq]
  constructor
  · intro hKey
    simp [hKey]
  · intro hKey
    simp [hKey]

/-- Witness of C4 (amended): a regional channel with a two-line credential is
inserted as one record that keeps both lines. -/
theorem AddChannel_vertex_single_witness :
    AddChannel sampleCommon emptyModel 7 (.ok { vertexNoKey with Key := "a\nb" })
      = [Event.BatchInsertChannels [{ vertexNoKey with Key := "a\nb", CreatedTime := 7 }],
         success none] :=
  (AddChannel_vertex_single sampleCommon emptyModel 7 { vertexNoKey with Key := "a\nb" }
    (by decide) (by decide)).1 (by decide)

/-- Counterexample to C4 as stated: a regional channel that passes validation
and has the empty raw credential is inserted as zero records, not one. -/
theorem AddChannel_vertex_empty_key :
    vertexNoKey.Type_ = sampleCommon.ChannelTypeVertexAi ∧
    passesValidation sampleCommon vertexNoKey ∧
    AddChannel sampleCommon emptyModel 7 (.ok vertexNoKey)
      = [Event.BatchInsertChannels [], success none] := by
  decide

/-- C5, as the code has it: for a non-regional channel whose raw credential is
empty or consists only of newline characters, the expansion yields zero
records: the one persistence call is a batch insert of the empty list, no
envelope is written for the dropped lines, and the only envelope reports the
outcome of that insert. -/
theorem AddChannel_newlines_only (cm : Common) (md : Model) (now : Int) (channel : Channel)
    (hType : channel.Type_ ≠ cm.ChannelTypeVertexAi)
    (hraw : ∀ c ∈ channel.Key.data, c = '\n') :
    AddChannel cm md now (.ok channel)
      = [Event.BatchInsertChannels [], writeOutcome (md.BatchInsertChannels []) none] := by
  have h := expandSpec_newlines { channel with CreatedTime := now } channel.Key hraw
  rw [AddChannel_other_type_spec cm md now channel hType, h]

/-- Witness of C5 (amended): the credential of two newlines. -/
theorem AddChannel_newlines_only_witness :
    AddChannel sampleCommon emptyModel 7 (.ok { Channel.zero with Key := "\n\n" })
      = [Event.BatchInsertChannels [], success none] :=
  AddChannel_newlines_only sampleCommon emptyModel 7 { Channel.zero with Key := "\n\n" }
    (by decide) (by decide)

/-- Counterexample to C5 as stated: the raw credential of one blank is all
whitespace, yet the expansion yields one record, whose credential is the
blank. -/
theorem AddChannel_blank_line_kept :
    (∀ c ∈ blankKeyChannel.Key.data, c.isWhitespace = true) ∧
    blankKeyChannel.Type_ ≠ sampleCommon.ChannelTypeVertexAi ∧
    AddChannel sampleCommon emptyModel 7 (.ok blankKeyChannel)
      = [Event.BatchInsertChannels [{ blankKeyChannel with CreatedTime := 7 }], success none] := by
  decide

/-! ## Provider validation -/

theorem GoMap.index_of_not_hasKey (m : GoMap) (key : String) (h : m.hasKey key = false) :
    m.index key = none := by
  unfold GoMap.hasKey at h
  unfold GoMap.index
  cases hl : m.lookup key with
  | none => rfl
  | some v => rw [hl] at h; simp at h

theorem UpdateChannel_update_eq (md : Model) (channel : Channel) :
    UpdateChannel_update md channel
      = [Event.Update channel,
         writeOutcome (md.Update channel).1 (some (.channel (md.Update channel).2))] := by
  simp only [UpdateChannel_update, writeOutcome]
  rcases md.Update channel with ⟨_ | err, updated⟩ <;> rfl

/-- C6: for a channel of the regional provider type whose `other` field parses
as a key/value map that has no `default` key, `AddChannel` and `UpdateChannel`
both write exactly one envelope, with success false and the missing-default
reason, and neither makes a persistence call. -/
theorem vertex_missing_default_rejected (cm : Common) (md : Model) (now : Int)
    (channel : Channel)
    (hType : channel.Type_ = cm.ChannelTypeVertexAi)
    (hmap : cm.IsJsonStr channel.Other = true)
    (hdef : (cm.StrToMap channel.Other).hasKey "default" = false) :
    AddChannel cm md now (.ok channel) = [failure "部署地区必须包含default字段"] ∧
    UpdateChannel cm md (.ok channel) = [failure "部署地区必须包含default字段"] ∧
    persistenceCalls (AddChannel cm md now (.ok channel)) = [] ∧
    persistenceCalls (UpdateChannel cm md (.ok channel)) = [] := by
  have hOther : channel.Other ≠ "" := by
    intro h
    rw [h, cm.IsJsonStr_empty] at hmap
    exact Bool.noConfusion hmap
  have hidx := GoMap.index_of_not_hasKey _ _ hdef
  have hA : AddChannel cm md now (.ok channel) = [failure "部署地区必须包含default字段"] := by
    simp only [AddChannel, hType, if_true, hOther, if_false]
    rw [if_pos ⟨hmap, hidx⟩]
  have hU : UpdateChannel cm md (.ok channel) = [failure "部署地区必须包含default字段"] := by
    simp only [UpdateChannel, hType, if_true, hOther, if_false]
    rw [if_pos ⟨hmap, hidx⟩]
  refine ⟨hA, hU, ?_, ?_⟩
  · rw [hA]; rfl
  · rw [hU]; rfl

/-- Witness of C6: the regional channel whose `other` is the empty object. -/
theorem vertex_missing_default_rejected_witness :
    AddChannel sampleCommon emptyModel 7 (.ok vertexEmptyObject)
      = [failure "部署地区必须包含default字段"] ∧
    UpdateChannel sampleCommon emptyModel (.ok vertexEmptyObject)
      = [failure "部署地区必须包含default字段"] :=
  have h := vertex_missing_default_rejected sampleCommon emptyModel 7 vertexEmptyObject
    (by decide) (by decide) (by decide)
  ⟨h.1, h.2.1⟩

/-- C7, as the code has it: for a channel of the regional provider type whose
`other` field is a non-empty string that does not parse as a key/value map,
validation accepts it in `AddChannel` and in `UpdateChannel` with no `default`
check: each handler makes its persistence call and writes one envelope, which
is the success envelope whenever that call reports no error. -/
theorem vertex_plain_other_accepted (cm : Common) (md : Model) (now : Int) (channel : Channel)
    (hType : channel.Type_ = cm.ChannelTypeVertexAi)
    (hOther : channel.Other ≠ "")
    (hmap : cm.IsJsonStr channel.Other = false) :
    AddChannel cm md now (.ok channel)
      = [Event.BatchInsertChannels
           (AddChannel_expand { channel with CreatedTime := now } [channel.Key]),
         writeOutcome
           (md.BatchInsertChannels
             (AddChannel_expand { channel with CreatedTime := now } [channel.Key])) none] ∧
    UpdateChannel cm md (.ok channel)
      = [Event.Update channel,
         writeOutcome (md.Update channel).1 (some (.channel (md.Update channel).2))] := by
  have hno : ¬ (cm.IsJsonStr channel.Other = true ∧
      (cm.StrToMap channel.Other).index "default" = none) := by
    rw [hmap]
    exact fun h => Bool.noConfusion h.1
  constructor
  · rw [AddChannel_vertex_valid cm md now channel hType ⟨hOther, hno⟩, AddChannel_insert_eq]
  · simp only [UpdateChannel, hType, if_true, hOther, if_false]
    rw [if_neg hno, UpdateChannel_update_eq]

/-- Witness of C7 (amended): a regional channel with a plain region name is
inserted, and updated, with success. -/
theorem vertex_plain_other_accepted_witness :
    AddChannel sampleCommon emptyModel 7 (.ok vertexPlainRegion)
      = [Event.BatchInsertChannels [{ vertexPlainRegion with CreatedTime := 7 }], success none] ∧
    UpdateChannel sampleCommon emptyModel (.ok vertexPlainRegion)
      = [Event.Update vertexPlainRegion, success (some (.channel vertexPlainRegion))] :=
  vertex_plain_other_accepted sampleCommon emptyModel 7 vertexPlainRegion
    (by decide) (by decide) (by decide)

/-- Counterexample to C7 as stated: the empty string does not parse as a
key/value map, yet a regional channel whose `other` is the empty string is
rejected by `AddChannel` and by `UpdateChannel` before any persistence call,
although the insert and the update would have succeeded. -/
theorem vertex_empty_other_rejected :
    vertexEmptyOther.Type_ = sampleCommon.ChannelTypeVertexAi ∧
    sampleCommon.IsJsonStr vertexEmptyOther.Other = false ∧
    AddChannel sampleCommon emptyModel 7 (.ok vertexEmptyOther) = [failure "部署地区不能为空"] ∧
    UpdateChannel sampleCommon emptyModel (.ok vertexEmptyOther) = [failure "部署地区不能为空"] ∧
    emptyModel.BatchInsertChannels [{ vertexEmptyOther with CreatedTime := 7 }] = none ∧
    (emptyModel.Update vertexEmptyOther).1 = none := by
  decide

/-! ## The tag operations -/

/-- C9: in `DisableTagChannels`, `EnableTagChannels` and `EditTagChannels` a
bound request whose tag is the empty string is answered by one envelope with
success false and no persistence call is made; a bound request with a
non-empty tag makes exactly one persistence call, the set-oriented call of the
operation, with that tag. -/
theorem tag_operations (md : Model) (channelTag : ChannelTag) :
    (channelTag.Tag = "" →
      DisableTagChannels md (.ok channelTag) = [failure "参数错误"] ∧
      EnableTagChannels md (.ok channelTag) = [failure "参数错误"] ∧
      EditTagChannels md (.ok channelTag) = [failure "tag不能为空"]) ∧
    (channelTag.Tag ≠ "" →
      persistenceCalls (DisableTagChannels md (.ok channelTag))
        = [Event.DisableChannelByTag channelTag.Tag] ∧
      persistenceCalls (EnableTagChannels md (.ok channelTag))
        = [Event.EnableChannelByTag channelTag.Tag] ∧
      persistenceCalls (EditTagChannels md (.ok channelTag))
        = [Event.EditChannelByTag channelTag.Tag channelTag.NewTag channelTag.ModelMapping
            channelTag.Models channelTag.Groups channelTag.Priority channelTag.Weight]) := by
  constructor
  · intro h
    simp only [DisableTagChannels, EnableTagChannels, EditTagChannels, h, if_true, and_self]
  · intro h
    simp only [DisableTagChannels, EnableTagChannels, EditTagChannels, h, if_false]
    refine ⟨?_, ?_, ?_⟩
    · cases md.DisableChannelByTag channelTag.Tag <;> rfl
    · cases md.EnableChannelByTag channelTag.Tag <;> rfl
    · cases md.EditChannelByTag channelTag.Tag channelTag.NewTag channelTag.ModelMapping
        channelTag.Models channelTag.Groups channelTag.Priority channelTag.Weight <;> rfl

/-- Witness of C9: the empty tag and the tag `"x"`. -/
theorem tag_operations_witness :
    (DisableTagChannels emptyModel (.ok (tagRequest "")) = [failure "参数错误"] ∧
      EnableTagChannels emptyModel (.ok (tagRequest "")) = [failure "参数错误"] ∧
      EditTagChannels emptyModel (.ok (tagRequest "")) = [failure "tag不能为空"]) ∧
    persistenceCalls (DisableTagChannels emptyModel (.ok (tagRequest "x")))
      = [Event.DisableChannelByTag "x"] :=
  ⟨(tag_operations emptyModel (tagRequest "")).1 rfl,
   ((tag_operations emptyModel (tagRequest "x")).2 (by decide)).1⟩

/-! ## Upstream model discovery -/

/-- C8 fails on the code.  With the upstream unreachable, `FetchUpstreamModels`
writes the transport failure, does not return, and goes on to write a decode
failure, an upstream failure and finally a success envelope with a model id
list: four envelopes, the last with success true.  With an upstream whose
envelope has success false it writes the failure and then a success envelope
with the model ids. -/
theorem FetchUpstreamModels_falls_through :
    FetchUpstreamModels sampleCommon (storeModel [openaiChannel] (by decide) [])
        refusedUpstream sampleUnmarshal (.ok 1)
      = [Event.GetChannelById 1 true,
         Event.GetResponseBody "GET" "https://up.example/v1/models" openaiChannel "sk-1",
         failure "connection refused",
         failure "unexpected end of JSON input",
         failure "上游返回错误",
         success (some (.ids []))] ∧
    FetchUpstreamModels sampleCommon (storeModel [openaiChannel] (by decide) [])
        answeringUpstream sampleUnmarshal (.ok 1)
      = [Event.GetChannelById 1 true,
         Event.GetResponseBody "GET" "https://up.example/v1/models" openaiChannel "sk-1",
         failure "上游返回错误",
         success (some (.ids ["m1"]))] := by
  decide

/-! ## The listing -/

theorem withEarlier_map_snd {α : Type} (pre l : List α) :
    (withEarlier pre l).map Prod.snd = l := by
  induction l generalizing pre with
  | nil => rfl
  | cons x xs ih => simp [withEarlier, ih]

theorem responses_append (es fs : List Event) :
    responses (es ++ fs) = responses es ++ responses fs := by
  induction es with
  | nil => rfl
  | cons e es ih => cases e <;> simp [responses, ih]

theorem responses_fetches (tags : List String) :
    responses (tags.map Event.GetChannelsByTag) = [] := by
  induction tags with
  | nil => rfl
  | cons t ts ih => simp [responses, ih]

theorem partition_opens (md : Model) (st : ListState) (c : Channel)
    (hc : c.GetTag ≠ "" ∧ ¬ c.GetTag ∈ st.tags) :
    GetAllChannels_partition md st c
      = { tags := c.GetTag :: st.tags, channelData := st.channelData,
          tagChannels := st.tagChannels ++ fetchedGroup md c.GetTag,
          log := st.log ++ [Event.GetChannelsByTag c.GetTag] } := by
  simp only [GetAllChannels_partition]
  rw [if_pos hc]
  unfold fetchedGroup
  cases md.GetChannelsByTag c.GetTag <;> simp

theorem partition_individual (md : Model) (st : ListState) (c : Channel)
    (hc : ¬ (c.GetTag ≠ "" ∧ ¬ c.GetTag ∈ st.tags)) :
    GetAllChannels_partition md st c
      = { tags := st.tags, channelData := st.channelData ++ [c],
          tagChannels := st.tagChannels, log := st.log } := by
  simp only [GetAllChannels_partition]
  rw [if_neg hc]

/-- The first loop of `GetAllChannels`, started in a state whose `tags` are the
non-empty tags of the records `pre` already visited. -/
theorem partition_foldl (md : Model) (l pre : List Channel) (st : ListState)
    (hinv : ∀ t, t ∈ st.tags ↔ (t ≠ "" ∧ t ∈ pre.map Channel.GetTag)) :
    (l.foldl (GetAllChannels_partition md) st).channelData
      = st.channelData ++ ((withEarlier pre l).filter isIndividual).map Prod.snd ∧
    (l.foldl (GetAllChannels_partition md) st).tagChannels
      = st.tagChannels ++
          ((((withEarlier pre l).filter opensGroup).map (fun pc => pc.2.GetTag)).map
            (fetchedGroup md)).flatten ∧
    (l.foldl (GetAllChannels_partition md) st).log
      = st.log ++
          (((withEarlier pre l).filter opensGroup).map (fun pc => pc.2.GetTag)).map
            Event.GetChannelsByTag := by
  induction l generalizing pre st with
  | nil => simp [withEarlier]
  | cons c cs ih =>
    rw [List.foldl_cons]
    by_cases hc : c.GetTag ≠ "" ∧ ¬ c.GetTag ∈ st.tags
    · have hpre : ¬ c.GetTag ∈ pre.map Channel.GetTag := fun h => hc.2 ((hinv _).2 ⟨hc.1, h⟩)
      have hopen : opensGroup (pre, c) = true := by
        simp only [opensGroup, decide_eq_true_eq]; exact ⟨hc.1, hpre⟩
      have hind : isIndividual (pre, c) = false := by
        simp only [isIndividual, decide_eq_false_iff_not, not_or]; exact ⟨hc.1, hpre⟩
      have hinv2 : ∀ t, t ∈ c.GetTag :: st.tags ↔
          (t ≠ "" ∧ t ∈ (pre ++ [c]).map Channel.GetTag) := by
        intro t
        simp only [List.mem_cons, List.map_append, List.map_cons, List.map_nil,
          List.mem_append, List.not_mem_nil, or_false, hinv t]
        constructor
        · rintro (h | h)
          · exact ⟨h ▸ hc.1, Or.inr h⟩
          · exact ⟨h.1, Or.inl h.2⟩
        · rintro ⟨h1, h2 | h2⟩
          · exact Or.inr ⟨h1, h2⟩
          · exact Or.inl h2
      rw [partition_opens md st c hc]
      obtain ⟨h1, h2, h3⟩ := ih (pre ++ [c])
        { tags := c.GetTag :: st.tags, channelData := st.channelData,
          tagChannels := st.tagChannels ++ fetchedGroup md c.GetTag,
          log := st.log ++ [Event.GetChannelsByTag c.GetTag] } hinv2
      rw [h1, h2, h3]
      simp [withEarlier, List.filter_cons, hopen, hind]
    · have hc2 : c.GetTag = "" ∨ c.GetTag ∈ st.tags := by
        by_cases h : c.GetTag = ""
        · exact Or.inl h
        · right
          by_contra h2
          exact hc ⟨h, h2⟩
      have hind : isIndividual (pre, c) = true := by
        simp only [isIndividual, decide_eq_true_eq]
        rcases hc2 with h | h
        · exact Or.inl h
        · exact Or.inr ((hinv _).1 h).2
      have hopen : opensGroup (pre, c) = false := by
        simp only [opensGroup, decide_eq_false_iff_not, not_and, not_not]
        intro h
        rcases hc2 with h2 | h2
        · exact absurd h2 h
        · exact ((hinv _).1 h2).2
      have hinv2 : ∀ t, t ∈ st.tags ↔ (t ≠ "" ∧ t ∈ (pre ++ [c]).map Channel.GetTag) := by
        intro t
        simp only [List.map_append, List.map_cons, List.map_nil, List.mem_append,
          List.mem_cons, List.not_mem_nil, or_false, hinv t]
        constructor
        · rintro ⟨h1, h2⟩
          exact ⟨h1, Or.inl h2⟩
        · rintro ⟨h1, h2 | h2⟩
          · exact ⟨h1, h2⟩
          · rcases hc2 with h3 | h3
            · exact absurd (h2 ▸ h3) h1
            · exact ⟨h1, h2 ▸ ((hinv _).1 h3).2⟩
      rw [partition_individual md st c hc]
      obtain ⟨h1, h2, h3⟩ := ih (pre ++ [c])
        { tags := st.tags, channelData := st.channelData ++ [c],
          tagChannels := st.tagChannels, log := st.log } hinv2
      rw [h1, h2, h3]
      simp [withEarlier, List.filter_cons, hopen, hind]

theorem dedup_any (channelData : List Channel) (channel : Channel) :
    channelData.any (fun can => channel.Id == can.Id) = true
      ↔ channel.Id ∈ channelData.map Channel.Id := by
  simp only [List.any_eq_true, beq_iff_eq, List.mem_map]
  constructor
  · rintro ⟨can, hcan, h⟩
    exact ⟨can, hcan, h.symm⟩
  · rintro ⟨can, hcan, h⟩
    exact ⟨can, hcan, h.symm⟩

theorem dedup_present (channelData : List Channel) (channel : Channel)
    (h : channel.Id ∈ channelData.map Channel.Id) :
    GetAllChannels_dedup channelData channel = channelData := by
  simp only [GetAllChannels_dedup, (dedup_any channelData channel).2 h]
  rfl

theorem dedup_absent (channelData : List Channel) (channel : Channel)
    (h : ¬ channel.Id ∈ channelData.map Channel.Id) :
    GetAllChannels_dedup channelData channel = channelData ++ [channel] := by
  have hany : channelData.any (fun can => channel.Id == can.Id) = false := by
    cases hb : channelData.any (fun can => channel.Id == can.Id) with
    | false => rfl
    | true => exact absurd ((dedup_any channelData channel).1 hb) h
  simp only [GetAllChannels_dedup, hany]
  rfl

/-- The second loop of `GetAllChannels`, started on a `channelData` that holds
the ids of `ind` and of the fetched records `pre` already visited. -/
theorem dedup_foldl (ind l pre acc : List Channel)
    (hinv : ∀ i, i ∈ acc.map Channel.Id ↔ i ∈ (ind ++ pre).map Channel.Id) :
    l.foldl GetAllChannels_dedup acc
      = acc ++ ((withEarlier pre l).filter (isFresh ind)).map Prod.snd := by
  induction l generalizing pre acc with
  | nil => simp [withEarlier]
  | cons r rs ih =>
    rw [List.foldl_cons]
    by_cases hr : r.Id ∈ acc.map Channel.Id
    · have hfresh : isFresh ind (pre, r) = false := by
        simp only [isFresh, decide_eq_false_iff_not, not_not]
        exact (hinv _).1 hr
      have hinv2 : ∀ i, i ∈ acc.map Channel.Id ↔ i ∈ (ind ++ (pre ++ [r])).map Channel.Id := by
        intro i
        constructor
        · intro h
          have h2 := (hinv i).1 h
          simp only [List.map_append, List.mem_append] at h2 ⊢
          rcases h2 with h2 | h2
          · exact Or.inl h2
          · exact Or.inr (Or.inl h2)
        · intro h
          simp only [List.map_append, List.mem_append, List.map_cons, List.map_nil,
            List.mem_cons, List.not_mem_nil, or_false] at h
          rcases h with h | h | h
          · exact (hinv i).2 (by simp only [List.map_append, List.mem_append]; exact Or.inl h)
          · exact (hinv i).2 (by simp only [List.map_append, List.mem_append]; exact Or.inr h)
          · exact h ▸ hr
      rw [dedup_present acc r hr, ih (pre ++ [r]) acc hinv2]
      simp [withEarlier, List.filter_cons, hfresh]
    · have hfresh : isFresh ind (pre, r) = true := by
        simp only [isFresh, decide_eq_true_eq]
        exact fun h => hr ((hinv _).2 h)
      have hinv2 : ∀ i, i ∈ (acc ++ [r]).map Channel.Id
          ↔ i ∈ (ind ++ (pre ++ [r])).map Channel.Id := by
        intro i
        have h0 := hinv i
        simp only [List.map_append, List.mem_append, List.map_cons, List.map_nil,
          List.mem_cons, List.not_mem_nil, or_false] at h0 ⊢
        rw [h0, or_assoc]
      rw [dedup_absent acc r hr, ih (pre ++ [r]) (acc ++ [r]) hinv2]
      simp [withEarlier, List.filter_cons, hfresh]

theorem dedup_foldl_nodup (l acc : List Channel) (hacc : (acc.map Channel.Id).Nodup) :
    ((l.foldl GetAllChannels_dedup acc).map Channel.Id).Nodup := by
  induction l generalizing acc with
  | nil => exact hacc
  | cons r rs ih =>
    rw [List.foldl_cons]
    apply ih
    by_cases hr : r.Id ∈ acc.map Channel.Id
    · rw [dedup_present acc r hr]
      exact hacc
    · rw [dedup_absent acc r hr, List.map_append, List.nodup_append]
      refine ⟨hacc, List.nodup_singleton _, ?_⟩
      intro i hi hi2
      simp only [List.map_cons, List.map_nil, List.mem_singleton] at hi2
      exact hr (hi2 ▸ hi)

theorem dedup_foldl_mono (l acc : List Channel) (x : Channel) (hx : x ∈ acc) :
    x ∈ l.foldl GetAllChannels_dedup acc := by
  induction l generalizing acc with
  | nil => exact hx
  | cons r rs ih =>
    rw [List.foldl_cons]
    apply ih
    by_cases hr : r.Id ∈ acc.map Channel.Id
    · rw [dedup_present acc r hr]
      exact hx
    · rw [dedup_absent acc r hr]
      exact List.mem_append_left _ hx

theorem dedup_foldl_covers (l acc : List Channel) (m : Channel) (hm : m ∈ l) :
    ∃ r ∈ l.foldl GetAllChannels_dedup acc, r.Id = m.Id := by
  induction l generalizing acc with
  | nil => exact absurd hm (List.not_mem_nil _)
  | cons r rs ih =>
    rw [List.foldl_cons]
    rcases List.mem_cons.1 hm with h | h
    · subst h
      by_cases hr : m.Id ∈ acc.map Channel.Id
      · obtain ⟨x, hx, hxid⟩ := List.mem_map.1 hr
        exact ⟨x, dedup_foldl_mono rs _ x (by rw [dedup_present acc m hr]; exact hx), hxid⟩
      · refine ⟨m, dedup_foldl_mono rs _ m ?_, rfl⟩
        rw [dedup_absent acc m hr]
        exact List.mem_append_right _ (List.mem_singleton_self _)
    · exact ih _ h

theorem opensGroup_mem (T : String) (hT : T ≠ "") (l pre : List Channel)
    (hl : T ∈ l.map Channel.GetTag) (hpre : ¬ T ∈ pre.map Channel.GetTag) :
    T ∈ ((withEarlier pre l).filter opensGroup).map (fun pc => pc.2.GetTag) := by
  induction l generalizing pre with
  | nil => exact absurd hl (List.not_mem_nil _)
  | cons x xs ih =>
    by_cases hx : x.GetTag = T
    · have hopen : opensGroup (pre, x) = true := by
        simp only [opensGroup, decide_eq_true_eq, hx]
        exact ⟨hT, hpre⟩
      simp [withEarlier, List.filter_cons, hopen, hx]
    · have hxs : T ∈ xs.map Channel.GetTag := by
        simp only [List.map_cons, List.mem_cons] at hl
        rcases hl with h | h
        · exact absurd h.symm hx
        · exact h
      have hpre2 : ¬ T ∈ (pre ++ [x]).map Channel.GetTag := by
        simp only [List.map_append, List.map_cons, List.map_nil, List.mem_append,
          List.mem_cons, List.not_mem_nil, or_false, not_or]
        exact ⟨hpre, fun h => hx h.symm⟩
      have h := ih (pre ++ [x]) hxs hpre2
      simp only [withEarlier, List.filter_cons]
      split
      · exact List.mem_cons_of_mem _ h
      · exact h

theorem GetAllChannels_state_eq (md : Model) (page : List Channel) :
    (GetAllChannels_state md page).channelData = individually page ∧
    (GetAllChannels_state md page).tagChannels = fetchedRecords md page ∧
    (GetAllChannels_state md page).log = (firstTags page).map Event.GetChannelsByTag := by
  have h := partition_foldl md page []
    { tags := [], channelData := [], tagChannels := [], log := [] } (by simp)
  simpa [GetAllChannels_state, individually, fetchedRecords, firstTags] using h

theorem GetAllChannels_data_eq (md : Model) (page : List Channel) :
    GetAllChannels_data md page = listingSpec md page := by
  obtain ⟨h1, h2, _⟩ := GetAllChannels_state_eq md page
  simp only [GetAllChannels_data, h1, h2, listingSpec]
  exact dedup_foldl (individually page) (fetchedRecords md page) [] (individually page)
    (by simp)

theorem individually_sublist (page : List Channel) : (individually page).Sublist page := by
  have h := ((List.filter_sublist (withEarlier [] page) : 
    ((withEarlier [] page).filter isIndividual).Sublist _)).map Prod.snd
  rw [withEarlier_map_snd] at h
  exact h

/-- The events of `GetAllChannels` when the listing call answers with `page`. -/
theorem GetAllChannels_listed (cm : Common) (md : Model) (pQuery pageSizeQuery : Int)
    (idSort : Bool) (page : List Channel)
    (hpage : md.GetAllChannels (GetAllChannels_query cm pQuery pageSizeQuery).1
      (GetAllChannels_query cm pQuery pageSizeQuery).2 false idSort = .ok page) :
    GetAllChannels cm md pQuery pageSizeQuery idSort
      = Event.GetAllChannels (GetAllChannels_query cm pQuery pageSizeQuery).1
          (GetAllChannels_query cm pQuery pageSizeQuery).2 false idSort ::
        ((firstTags page).map Event.GetChannelsByTag ++
          [success (some (.channels (GetAllChannels_data md page)))]) := by
  simp only [GetAllChannels, hpage, (GetAllChannels_state_eq md page).2.2]

theorem GetAllChannels_responses (cm : Common) (md : Model) (pQuery pageSizeQuery : Int)
    (idSort : Bool) (page : List Channel)
    (hpage : md.GetAllChannels (GetAllChannels_query cm pQuery pageSizeQuery).1
      (GetAllChannels_query cm pQuery pageSizeQuery).2 false idSort = .ok page) :
    responses (GetAllChannels cm md pQuery pageSizeQuery idSort)
      = [{ success := true, message := "",
           data := some (.channels (GetAllChannels_data md page)) }] := by
  rw [GetAllChannels_listed cm md pQuery pageSizeQuery idSort page hpage]
  simp [responses, responses_append, responses_fetches, success]

/-- C1: for every page the persistence listing call returns and every result
(success or error) of the per-tag group fetches, `GetAllChannels` answers with
one success envelope, and the data sequence in it contains each record id at
most once.  (The collaborator `md` is arbitrary but for the data-model
invariant that the records of a listed page have distinct ids.) -/
theorem GetAllChannels_ids_distinct (cm : Common) (md : Model) (pQuery pageSizeQuery : Int)
    (idSort : Bool) (page : List Channel)
    (hpage : md.GetAllChannels (GetAllChannels_query cm pQuery pageSizeQuery).1
      (GetAllChannels_query cm pQuery pageSizeQuery).2 false idSort = .ok page) :
    responses (GetAllChannels cm md pQuery pageSizeQuery idSort)
      = [{ success := true, message := "",
           data := some (.channels (GetAllChannels_data md page)) }] ∧
    ((GetAllChannels_data md page).map Channel.Id).Nodup := by
  refine ⟨GetAllChannels_responses cm md pQuery pageSizeQuery idSort page hpage, ?_⟩
  have hids := md.GetAllChannels_ids _ _ _ _ page hpage
  have hind : ((GetAllChannels_state md page).channelData.map Channel.Id).Nodup := by
    rw [(GetAllChannels_state_eq md page).1]
    exact hids.sublist ((individually_sublist page).map Channel.Id)
  exact dedup_foldl_nodup _ _ hind

/-- Witness of C1: the first two records of the sample store are listed; the
group of the first is fetched whole and the listing has the ids 3, 1, 2. -/
theorem GetAllChannels_ids_distinct_witness :
    responses (GetAllChannels sampleCommon sampleModel 0 2 false)
      = [{ success := true, message := "",
           data := some (.channels [loneChannel, groupMemberA, groupMemberB]) }] ∧
    ([loneChannel, groupMemberA, groupMemberB].map Channel.Id).Nodup := by
  have h := GetAllChannels_ids_distinct sampleCommon sampleModel 0 2 false
    [groupMemberA, loneChannel] rfl
  have e : GetAllChannels_data sampleModel [groupMemberA, loneChannel]
      = [loneChannel, groupMemberA, groupMemberB] := by decide
  rw [e] at h
  exact h

/-- C2, as the code has it: if a record of the listed page carries a non-empty
tag and the fetch of that tag group succeeds, then every member the fetch
returned (every record the persistence layer holds under that tag) appears in
the returned data, as a record with its id. -/
theorem GetAllChannels_group_complete (cm : Common) (md : Model) (pQuery pageSizeQuery : Int)
    (idSort : Bool) (page members : List Channel) (c : Channel)
    (hpage : md.GetAllChannels (GetAllChannels_query cm pQuery pageSizeQuery).1
      (GetAllChannels_query cm pQuery pageSizeQuery).2 false idSort = .ok page)
    (hc : c ∈ page) (hTag : c.GetTag ≠ "")
    (hfetch : md.GetChannelsByTag c.GetTag = .ok members) :
    responses (GetAllChannels cm md pQuery pageSizeQuery idSort)
      = [{ success := true, message := "",
           data := some (.channels (GetAllChannels_data md page)) }] ∧
    ∀ m ∈ members, ∃ r ∈ GetAllChannels_data md page, r.Id = m.Id := by
  refine ⟨GetAllChannels_responses cm md pQuery pageSizeQuery idSort page hpage, ?_⟩
  intro m hm
  have hfirst : c.GetTag ∈ firstTags page :=
    opensGroup_mem c.GetTag hTag page [] (List.mem_map_of_mem _ hc) (by simp)
  have hgroup : fetchedGroup md c.GetTag = members := by
    simp only [fetchedGroup, hfetch]
  have hmem : m ∈ (GetAllChannels_state md page).tagChannels := by
    rw [(GetAllChannels_state_eq md page).2.1, fetchedRecords, List.mem_flatten]
    exact ⟨members, List.mem_map.2 ⟨c.GetTag, hfirst, hgroup⟩, hm⟩
  exact dedup_foldl_covers _ _ m hmem

/-- Witness of C2 (amended): only the first member of the group `"x"` is on the
page of size one, and both members are in the returned data. -/
theorem GetAllChannels_group_complete_witness :
    responses (GetAllChannels sampleCommon sampleModel 0 1 false)
      = [{ success := true, message := "",
           data := some (.channels [groupMemberA, groupMemberB]) }] ∧
    ∀ m ∈ [groupMemberA, groupMemberB],
      ∃ r ∈ [groupMemberA, groupMemberB], r.Id = m.Id := by
  have h := GetAllChannels_group_complete sampleCommon sampleModel 0 1 false
    [groupMemberA] [groupMemberA, groupMemberB] groupMemberA rfl (by decide) (by decide) rfl
  have e : GetAllChannels_data sampleModel [groupMemberA] = [groupMemberA, groupMemberB] := by
    decide
  rw [e] at h
  exact h

/-- Counterexample to C2 as stated: the group `"x"` has two stored members, the
first is on the listed page, the fetch of the group fails, and the returned
data is empty: neither member appears. -/
theorem GetAllChannels_group_lost_on_error :
    ((sampleStore.filter (fun c => c.GetTag == "x")) = [groupMemberA, groupMemberB]) ∧
    failingModel.GetAllChannels 0 1 false false = .ok [groupMemberA] ∧
    GetAllChannels sampleCommon failingModel 0 1 false
      = [Event.GetAllChannels 0 1 false false, Event.GetChannelsByTag "x",
         success (some (.channels []))] :=
  ⟨by decide, rfl, by decide⟩

/-- C10: when the listing call answers with a page, `GetAllChannels` fetches the
tag groups in the order in which their tags first appear on the page, and the
data it returns is `listingSpec`: the individually-appended page records (empty
tag, or tag already seen earlier on the page) in page order, followed by the
fetched tag-group records whose id is not already present, in fetch order. -/
theorem GetAllChannels_order (cm : Common) (md : Model) (pQuery pageSizeQuery : Int)
    (idSort : Bool) (page : List Channel)
    (hpage : md.GetAllChannels (GetAllChannels_query cm pQuery pageSizeQuery).1
      (GetAllChannels_query cm pQuery pageSizeQuery).2 false idSort = .ok page) :
    GetAllChannels cm md pQuery pageSizeQuery idSort
      = Event.GetAllChannels (GetAllChannels_query cm pQuery pageSizeQuery).1
          (GetAllChannels_query cm pQuery pageSizeQuery).2 false idSort ::
        ((firstTags page).map Event.GetChannelsByTag ++
          [success (some (.channels (listingSpec md page)))]) := by
  rw [GetAllChannels_listed cm md pQuery pageSizeQuery idSort page hpage,
    GetAllChannels_data_eq]

/-- Witness of C10: the whole sample store on one page.  The second member of
the group `"x"` has a tag already seen and is appended individually after the
untagged record; the fetched group then adds the first member only. -/
theorem GetAllChannels_order_witness :
    GetAllChannels sampleCommon sampleModel 0 3 false
      = [Event.GetAllChannels 0 3 false false, Event.GetChannelsByTag "x",
         success (some (.channels [loneChannel, groupMemberB, groupMemberA]))] := by
  have h := GetAllChannels_order sampleCommon sampleModel 0 3 false sampleStore rfl
  have e : listingSpec sampleModel sampleStore = [loneChannel, groupMemberB, groupMemberA] := by
    decide
  have f : firstTags sampleStore = ["x"] := by decide
  have q : GetAllChannels_query sampleCommon 0 3 = (0, 3) := by decide
  rw [e, f, q] at h
  exact h

end Controller
